import Mathlib

/-!
Shallow embedding of modpack_dl.py (AndyJenks/modpack_dl), a downloader for
Twitch/Curse Minecraft modpack archives.  Python values parsed from JSON are
modelled by `Json`; exceptions by `PyErr`; the zip archive by `ZipSource`
(entry names paired with the parse outcome of their content); the local
filesystem by an association list `FS`; HTTP responses by `HttpResponse`
(status, body chunks, and an optional mid-stream transport failure point).
Observable actions (catalog requests, existence checks, log lines, directory
creation, the installer launch) are recorded as `Event` traces.
-/

/-- Model of a parsed JSON value (result of Python json.load). -/
inductive Json where
  | null : Json
  | bool : Bool → Json
  | int : Int → Json
  | str : String → Json
  | arr : List Json → Json
  | obj : List (String × Json) → Json

/-- Model of the Python exceptions the script can raise. -/
inductive PyErr where
  | keyError : PyErr
  | typeError : PyErr
  | jsonDecodeError : PyErr
  | nameError : PyErr
  | assertionError : PyErr
  | httpError : PyErr
  | connectionError : PyErr
  | fileExistsError : String → PyErr
deriving DecidableEq, Repr

/-- Python dict lookup d[k]: KeyError when the key is absent, TypeError when
the value is not a dict (string/int/list indexing with a string key). -/
def Json.get : Json → String → Except PyErr Json
  | .obj kvs, k =>
    match kvs.lookup k with
    | some v => .ok v
    | none => .error .keyError
  | _, _ => .error .typeError

/-- Python membership test k in d (false on non-dicts; the script only uses
it on parsed manifest objects). -/
def Json.hasKey : Json → String → Bool
  | .obj kvs, k => (kvs.lookup k).isSome
  | _, _ => false

/-- Python equality of a JSON value against a string literal: values that are
not strings compare unequal. -/
def Json.eqStr : Json → String → Bool
  | .str s, t => s == t
  | _, _ => false

/-- Python truthiness of a JSON value (used by if l[\x7bprimary\x7d]: and
if not f[\x7brequired\x7d]:). -/
def Json.truthy : Json → Bool
  | .null => false
  | .bool b => b
  | .int n => n != 0
  | .str s => s.length != 0
  | .arr l => !l.isEmpty
  | .obj l => !l.isEmpty

/-- Rendering of a JSON value inside a format string (abstracted for
composite values; the script only ever formats catalog name strings). -/
def Json.display : Json → String
  | .str s => s
  | .int n => toString n
  | .bool true => "True"
  | .bool false => "False"
  | .null => "None"
  | .arr _ => "<list>"
  | .obj _ => "<dict>"

/-- Python str.startswith on character sequences. -/
def strStartsWith (s pre : String) : Bool :=
  pre.data.isPrefixOf s.data

/-- Python str.endswith on character sequences. -/
def strEndsWith (s suf : String) : Bool :=
  suf.data.isSuffixOf s.data

/-- Python slicing s[:-n]: all characters except the last n. -/
def strDropRight (s : String) (n : Nat) : String :=
  String.mk (s.data.take (s.data.length - n))

/-- Splitting a character sequence at every slash, keeping empty pieces
(Python str.split with a slash separator). -/
def splitSlashAux : List Char → List (List Char)
  | [] => [[]]
  | c :: rest =>
    match splitSlashAux rest with
    | [] => [[]]
    | h :: t => if c = '/' then [] :: h :: t else (c :: h) :: t

/-- Python s.split on the slash separator. -/
def pySplitSlash (s : String) : List String :=
  (splitSlashAux s.data).map String.mk

/-- Model of the modpack zip archive: whether zipfile.is_zipfile accepts the
path, and the archive entries (namelist order), each entry name paired with
the JSON-parse outcome of its content (none = content is not valid JSON). -/
structure ZipSource where
  isZip : Bool
  entries : List (String × Option Json)

/-- Entry names of the archive, in order (ZipFile.namelist). -/
def ZipSource.namelist (z : ZipSource) : List String :=
  z.entries.map (fun e => e.1)

/-- get_manifest: open the fixed entry manifest.json inside the archive and
json.load it.  ZipFile.open raises KeyError when the entry is absent;
json.load raises JSONDecodeError when the content does not parse. -/
def get_manifest (z : ZipSource) : Except PyErr Json :=
  match z.entries.lookup "manifest.json" with
  | none => .error .keyError
  | some none => .error .jsonDecodeError
  | some (some j) => .ok j

/-- is_modpack_zip: false for non-zip paths; otherwise extract the manifest
and compare manifestType to the sentinel, with only KeyError caught (the
source catches KeyError alone, so a JSON parse failure propagates). -/
def is_modpack_zip (z : ZipSource) : Except PyErr Bool :=
  if !z.isZip then
    .ok false
  else
    match get_manifest z with
    | .error .keyError => .ok false
    | .error e => .error e
    | .ok mf =>
      match mf.get "manifestType" with
      | .error .keyError => .ok false
      | .error e => .error e
      | .ok v => .ok (v.eqStr "minecraftModpack")

/-- Split a POSIX path string into its nonempty components. -/
def splitPath (p : String) : List String :=
  (pySplitSlash p).filter (fun c => c ≠ "")

/-- Normalize an absolute path component list the way posixpath.abspath
does: drop empty and dot components (already split away) and resolve each
dot-dot against the previous component, staying at the root when empty. -/
def normComponents (cs : List String) : List String :=
  cs.foldl
    (fun acc c =>
      if c = "." then acc
      else if c = ".." then acc.dropLast
      else acc ++ [c])
    []

/-- os.path.abspath as a component list, relative to the current working
directory cwd (given as normalized absolute components). -/
def abspathComponents (cwd : List String) (p : String) : List String :=
  if strStartsWith p "/" then normComponents (splitPath p)
  else normComponents (cwd ++ splitPath p)

/-- os.path.join for two POSIX path strings: an absolute second argument
replaces the first; otherwise a separator is inserted unless one is
already present. -/
def os_path_join (a b : String) : String :=
  if strStartsWith b "/" then b
  else if a = "" then b
  else if strEndsWith a "/" then a ++ b
  else a ++ "/" ++ b

/-- Longest common component stem of two component lists (the two-path case
of os.path.commonpath, after both are made absolute). -/
def commonStem : List String → List String → List String
  | x :: xs, y :: ys => if x = y then x :: commonStem xs ys else []
  | _, _ => []

/-- is_subdir from the source: is A a subdir of B?  Both paths are made
absolute and the common path of the pair is compared to absolute B. -/
def is_subdir (cwd : List String) (a b : String) : Bool :=
  let abs_a := abspathComponents cwd a
  let abs_b := abspathComponents cwd b
  commonStem abs_a abs_b == abs_b

/-- Modelled from the spec: the strict-descendant relation the specification
ascribes to the containment assertion — a descendant that is not the
staging root itself. -/
def strictDescendant (cwd : List String) (a b : String) : Bool :=
  is_subdir cwd a b && !(abspathComponents cwd a == abspathComponents cwd b)

/-- Local filesystem model: files as an association list from path to
content (first binding wins), plus the set of directories. -/
structure FS where
  files : List (String × String)
  dirs : List String
deriving DecidableEq, Repr

/-- Content of a file, when present. -/
def FS.read (fs : FS) (p : String) : Option String :=
  fs.files.lookup p

/-- os.path.exists: a file or directory is present at the path. -/
def os_path_exists (fs : FS) (p : String) : Bool :=
  (fs.read p).isSome || fs.dirs.contains p

/-- os.path.isdir. -/
def os_path_isdir (fs : FS) (p : String) : Bool :=
  fs.dirs.contains p

/-- Create or overwrite a file with the given content. -/
def FS.write (fs : FS) (p c : String) : FS :=
  ⟨(p, c) :: fs.files, fs.dirs⟩

/-- Remove a file. -/
def FS.remove (fs : FS) (p : String) : FS :=
  ⟨fs.files.filter (fun e => !(e.1 == p)), fs.dirs⟩

/-- os.mkdir / os.makedirs: record the directory. -/
def FS.mkdir (fs : FS) (p : String) : FS :=
  ⟨fs.files, p :: fs.dirs⟩

/-- shutil.move of a file onto a (possibly existing) file path. -/
def FS.move (fs : FS) (src dst : String) : FS :=
  match fs.read src with
  | none => fs
  | some c => (fs.remove src).write dst c

/-- Model of a streamed HTTP response: raise_for_status outcome, the body as
a list of fixed-size chunks, and an optional transport-failure point —
failAfter = some k means iter_content raises after yielding k chunks. -/
structure HttpResponse where
  ok : Bool
  chunks : List String
  failAfter : Option Nat
deriving DecidableEq, Repr

/-- Chunks actually delivered by the stream before any transport failure. -/
def HttpResponse.delivered (r : HttpResponse) : List String :=
  match r.failAfter with
  | none => r.chunks
  | some k => r.chunks.take k

/-- Whether the stream raises a transport error at some point. -/
def HttpResponse.streamFails (r : HttpResponse) : Bool :=
  r.failAfter.isSome

/-- Filesystem states produced while streaming chunks into path p: opening
with mode wb truncates (index 0), then each chunk append yields the next
state, whose content is the concatenation of the chunks written so far. -/
def chunkStates (fs : FS) (p : String) (chunks : List String) : List FS :=
  (List.range (chunks.length + 1)).map
    (fun i => fs.write p (String.join (chunks.take i)))

/-- download_to_file from the source.  Returns the ordered trace of every
filesystem state (initial state included) together with the outcome: raise
FileExistsError when the destination exists without overwrite; raise on a
non-success HTTP status before touching the disk; otherwise stream the body
into the sibling temporary path (destination plus the .part suffix), raising
mid-stream on transport failure with the partial temporary file left behind,
and finally shutil.move the temporary file onto the destination. -/
def download_to_file (resp : HttpResponse) (file : String) (overwrite : Bool)
    (fs : FS) : List FS × Except PyErr FS :=
  if os_path_exists fs file && !overwrite then
    ([fs], .error (.fileExistsError file))
  else if !resp.ok then
    ([fs], .error .httpError)
  else
    let dlpath := file ++ ".part"
    let ds := resp.delivered
    let states := chunkStates fs dlpath ds
    if resp.streamFails then
      (fs :: states, .error .connectionError)
    else
      let final := (fs.write dlpath (String.join ds)).move dlpath file
      (fs :: states ++ [final], .ok final)

/-- Observable actions of the pipeline: catalog requests, the downloader's
HTTP fetch, destination existence checks, status lines, directory creation,
the override copy, and the installer launch. -/
inductive Event where
  | reqAddonInfo : Int → Event
  | reqDownloadUrl : Int → Int → Event
  | reqLoaderInfo : String → Event
  | httpGet : String → Event
  | checkExists : String → Event
  | logReused : String → Event
  | logDownloading : String → Event
  | mkdirEv : String → Event
  | copyTree : String → String → Event
  | runInstaller : String → Event
  | printMsg : String → Event
deriving DecidableEq, Repr

/-- The remote catalog service and download hosts, as oracles: add-on
metadata, download-url resolution, loader metadata, and the response served
for a plain GET of a URL. -/
structure Catalog where
  addonInfo : Int → Except PyErr Json
  downloadUrl : Int → Int → Except PyErr String
  loaderInfo : String → Except PyErr Json
  fetch : String → HttpResponse

/-- get_info from the source: assert the project id is an integer, then
request the add-on metadata (the request happens even when the catalog
answers with an HTTP error, which raise_for_status turns into a raise). -/
def get_info (c : Catalog) (proj_id : Json) : List Event × Except PyErr Json :=
  match proj_id with
  | .int n => ([.reqAddonInfo n], c.addonInfo n)
  | _ => ([], .error .assertionError)

/-- get_download_url from the source: assert both ids are integers, then
request the download-url resource and return the raw URL text. -/
def get_download_url (c : Catalog) (proj_id file_id : Json) :
    List Event × Except PyErr String :=
  match proj_id, file_id with
  | .int p, .int f => ([.reqDownloadUrl p f], c.downloadUrl p f)
  | _, _ => ([], .error .assertionError)

/-- get_modloader_info from the source: request loader metadata for the
URL-quoted identifier (quoting a non-string raises TypeError). -/
def get_modloader_info (c : Catalog) (modloader_id : Json) :
    List Event × Except PyErr Json :=
  match modloader_id with
  | .str s => ([.reqLoaderInfo s], c.loaderInfo s)
  | _ => ([], .error .typeError)

/-- Final segment of a URL or path after splitting on slashes — Python
url.split with separator slash, indexed at -1 (split never returns an
empty list, so the default is never taken). -/
def lastSegment (u : String) : String :=
  ((pySplitSlash u).getLastD "")

/-- download_manifest_file from the source: resolve the add-on metadata and
the download URL (both catalog requests), derive the destination path from
the final URL segment with the .disabled marker for non-required records,
then either log a reuse when the destination already exists without force,
or log and perform the download. -/
def download_manifest_file (c : Catalog) (f : Json) (folder : String)
    (force : Bool) (fs : FS) : List Event × Except PyErr FS :=
  match Json.get f "projectID" with
  | .error e => ([], .error e)
  | .ok pid =>
    let r1 := get_info c pid
    match r1.2 with
    | .error e => (r1.1, .error e)
    | .ok mod_info =>
      match Json.get f "fileID" with
      | .error e => (r1.1, .error e)
      | .ok fid =>
        let r2 := get_download_url c pid fid
        match r2.2 with
        | .error e => (r1.1 ++ r2.1, .error e)
        | .ok url =>
          let filename := lastSegment url
          let destpath0 := os_path_join folder filename
          match Json.get f "required" with
          | .error e => (r1.1 ++ r2.1, .error e)
          | .ok req =>
            let destpath := if req.truthy then destpath0 else destpath0 ++ ".disabled"
            if os_path_exists fs destpath && !force then
              match Json.get mod_info "name" with
              | .error e => (r1.1 ++ r2.1 ++ [.checkExists destpath], .error e)
              | .ok nm =>
                (r1.1 ++ r2.1 ++ [.checkExists destpath, .logReused nm.display], .ok fs)
            else
              match Json.get mod_info "name" with
              | .error e => (r1.1 ++ r2.1 ++ [.checkExists destpath], .error e)
              | .ok nm =>
                match download_to_file (c.fetch url) destpath false fs with
                | (_, .ok fs2) =>
                  (r1.1 ++ r2.1 ++ [.checkExists destpath, .logDownloading nm.display,
                    .httpGet url], .ok fs2)
                | (_, .error e) =>
                  (r1.1 ++ r2.1 ++ [.checkExists destpath, .logDownloading nm.display,
                    .httpGet url], .error e)

/-- extract_overrides from the source: read the overrides root from the
manifest, extract every archive entry whose name starts with it into the
ephemeral staging directory tempd, assert that the staging subdirectory for
the overrides root is a subdir of the staging root, and only then copy that
subtree onto the output directory.  The ok outcome records the performed
copy; the assertion failure raises before any copy. -/
structure ExtractOutcome where
  extracted : List String
  copySrc : String
  copyDst : String
deriving DecidableEq, Repr

/-- extract_overrides body (see ExtractOutcome). -/
def extract_overrides (cwd : List String) (z : ZipSource)
    (tempd output_dir : String) : Except PyErr ExtractOutcome :=
  match get_manifest z with
  | .error e => .error e
  | .ok mf =>
    match mf.get "overrides" with
    | .error e => .error e
    | .ok (.str or_folder) =>
      let extracted := z.namelist.filter (fun n => strStartsWith n or_folder)
      let output_override_dir := os_path_join tempd or_folder
      if is_subdir cwd output_override_dir tempd then
        .ok ⟨extracted, output_override_dir, output_dir⟩
      else
        .error .assertionError
    | .ok _ => .error .typeError

/-- output_dir_for_zip from the source: base filename with a trailing .zip
extension removed. -/
def output_dir_for_zip (fname : String) : String :=
  let filename := lastSegment fname
  if strEndsWith filename ".zip" then strDropRight filename 4 else filename

/-- Installer rewrite from main: when the destination path does not already
end in the installer suffix, strip the four-character archive extension
from both the destination path and the URL and append the suffix. -/
def rewrite_installer (dest_path url : String) : String × String :=
  if strEndsWith dest_path "-installer.jar" then (dest_path, url)
  else (strDropRight dest_path 4 ++ "-installer.jar",
        strDropRight url 4 ++ "-installer.jar")

/-- Loader-selection loop from main: iterate over the modLoaders sequence,
assigning the local variable for every entry whose primary field is truthy;
the accumulator models the variable being still unbound (none). -/
def select_loop (loaders : List Json) (acc : Option Json) :
    Except PyErr (Option Json) :=
  match loaders with
  | [] => .ok acc
  | l :: rest =>
    match Json.get l "primary" with
    | .error e => .error e
    | .ok p =>
      if p.truthy then
        match Json.get l "id" with
        | .error e => .error e
        | .ok i => select_loop rest (some i)
      else select_loop rest acc

/-- Reading the loader id after the loop: when no iteration assigned it the
variable is unbound and Python raises NameError. -/
def select_modloader (loaders : List Json) : Except PyErr Json :=
  match select_loop loaders none with
  | .error e => .error e
  | .ok none => .error .nameError
  | .ok (some i) => .ok i

/-- Loader download step from main (the try block): attempt the download
with overwrite off; a FileExistsError is passed over, so a pre-existing
installer file is kept and the installer is still launched; any other
downloader failure propagates.  The Downloading line is printed inside the
try, before the fetch. -/
def loader_download_step (c : Catalog) (nm : Json) (url dest_path : String)
    (fs : FS) : List Event × Except PyErr FS :=
  match download_to_file (c.fetch url) dest_path false fs with
  | (_, .ok fs2) =>
    ([.logDownloading nm.display, .httpGet url, .runInstaller dest_path], .ok fs2)
  | (_, .error (.fileExistsError _)) =>
    ([.logDownloading nm.display, .runInstaller dest_path], .ok fs)
  | (_, .error e) =>
    ([.logDownloading nm.display, .httpGet url], .error e)

/-- Loader phase of main (lines 180-209): select the primary loader id,
request its metadata, and when a downloadUrl is present rewrite the target
to the installer artifact, download idempotently and launch the installer;
otherwise report the missing download link and finish. -/
def loader_phase (c : Catalog) (mf : Json) (out_dname : String) (fs : FS) :
    List Event × Except PyErr FS :=
  match Json.get mf "minecraft" with
  | .error e => ([], .error e)
  | .ok mc =>
    match Json.get mc "modLoaders" with
    | .error e => ([], .error e)
    | .ok (.arr loaders) =>
      match select_modloader loaders with
      | .error e => ([], .error e)
      | .ok mlid =>
        let r1 := get_modloader_info c mlid
        match r1.2 with
        | .error e => (r1.1, .error e)
        | .ok loader_info =>
          if loader_info.hasKey "downloadUrl" then
            match Json.get loader_info "filename" with
            | .error e => (r1.1, .error e)
            | .ok (.str dest_fname) =>
              let dest_path0 := os_path_join out_dname dest_fname
              match Json.get loader_info "downloadUrl" with
              | .error e => (r1.1, .error e)
              | .ok (.str url0) =>
                let rw := rewrite_installer dest_path0 url0
                match Json.get loader_info "name" with
                | .error e => (r1.1, .error e)
                | .ok nm =>
                  let step := loader_download_step c nm rw.2 rw.1 fs
                  (r1.1 ++ step.1, step.2)
              | .ok _ => (r1.1, .error .typeError)
            | .ok _ => (r1.1, .error .typeError)
          else
            (r1.1 ++ [.printMsg ("Could not get download link for modloader " ++ mlid.display)], .ok fs)
    | .ok _ => ([], .error .typeError)

/-- Mod-download loop of main: download every file record in manifest order,
stopping at the first failure. -/
def download_all (c : Catalog) (files : List Json) (folder : String)
    (fs : FS) : List Event × Except PyErr FS :=
  match files with
  | [] => ([], .ok fs)
  | f :: rest =>
    let r := download_manifest_file c f folder false fs
    match r.2 with
    | .error e => (r.1, .error e)
    | .ok fs2 =>
      let rr := download_all c rest folder fs2
      (r.1 ++ rr.1, rr.2)

/-- main from the source, on one archive: validity check (stop with a
message when it fails), derive and ensure the output directory, print the
pack banner (KeyError when name, version or author is missing), extract the
overrides when declared, create the mods directory, download every mod in
manifest order, then run the loader phase.  The copytree effect on the
destination tree is recorded as an event. -/
def main_pipeline (c : Catalog) (cwd : List String) (tgt_zip : String)
    (z : ZipSource) (tempd : String) (fs : FS) : List Event × Except PyErr FS :=
  match is_modpack_zip z with
  | .error e => ([], .error e)
  | .ok false => ([.printMsg (tgt_zip ++ " is not a valid modpack zip.")], .ok fs)
  | .ok true =>
    let out_dname := output_dir_for_zip tgt_zip
    let step1 : List Event × FS :=
      if os_path_isdir fs out_dname then
        ([.printMsg ("Output directory " ++ out_dname ++ " already exists.")], fs)
      else
        ([.mkdirEv out_dname], fs.mkdir out_dname)
    match get_manifest z with
    | .error e => (step1.1, .error e)
    | .ok mf =>
      match Json.get mf "name", Json.get mf "version", Json.get mf "author" with
      | .ok _, .ok _, .ok _ =>
        let ovr : List Event × Except PyErr Unit :=
          if mf.hasKey "overrides" then
            match extract_overrides cwd z tempd (os_path_join out_dname "minecraft") with
            | .error e => ([], .error e)
            | .ok o => ([.copyTree o.copySrc o.copyDst], .ok ())
          else ([], .ok ())
        match ovr.2 with
        | .error e => (step1.1 ++ ovr.1, .error e)
        | .ok _ =>
          let mod_output_dir := os_path_join (os_path_join out_dname "minecraft") "mods"
          let fs2 := (step1.2).mkdir mod_output_dir
          match Json.get mf "files" with
          | .error e => (step1.1 ++ ovr.1 ++ [.mkdirEv mod_output_dir], .error e)
          | .ok (.arr files) =>
            let dl := download_all c files mod_output_dir fs2
            match dl.2 with
            | .error e => (step1.1 ++ ovr.1 ++ [.mkdirEv mod_output_dir] ++ dl.1, .error e)
            | .ok fs3 =>
              let lp := loader_phase c mf out_dname fs3
              (step1.1 ++ ovr.1 ++ [.mkdirEv mod_output_dir] ++ dl.1 ++ lp.1, lp.2)
          | .ok _ => (step1.1 ++ ovr.1 ++ [.mkdirEv mod_output_dir], .error .typeError)
      | _, _, _ => (step1.1, .error .keyError)

/-- Structured loader reference (id, primary) rendered as the manifest JSON
object the script reads. -/
def mkLoader (x : String × Bool) : Json :=
  Json.obj [("id", Json.str x.1), ("primary", Json.bool x.2)]

/-- Catalog oracle whose every request fails; used to instantiate theorems
whose conclusion does not depend on the catalog answers. -/
def trivialCatalog : Catalog :=
  ⟨fun _ => .error .httpError, fun _ _ => .error .httpError,
   fun _ => .error .httpError, fun _ => ⟨false, [], none⟩⟩

/-- Catalog oracle answering every request successfully with fixed data. -/
def demoCatalog : Catalog :=
  ⟨fun _ => .ok (Json.obj [("name", Json.str "JEI")]),
   fun _ _ => .ok "https://edge.example/files/123/jei-1.16.5.jar",
   fun _ => .ok (Json.obj []),
   fun _ => ⟨true, ["data"], none⟩⟩

/-- Structured manifest file record rendered as the JSON object the script
reads: integer project and file ids and the required flag. -/
def mkFileRecord (p fi : Int) (r : Bool) : Json :=
  Json.obj [("projectID", Json.int p), ("fileID", Json.int fi),
    ("required", Json.bool r)]

/-! Helper lemmas about the filesystem model and the embedding. -/

theorem FS.read_write_self (fs : FS) (p c : String) :
    (fs.write p c).read p = some c := by
  simp [FS.read, FS.write, List.lookup]

theorem FS.read_write_ne (fs : FS) (p c q : String) (h : q ≠ p) :
    (fs.write p c).read q = fs.read q := by
  have hb : (q == p) = false := beq_eq_false_iff_ne.mpr h
  simp [FS.read, FS.write, List.lookup, hb]

theorem lookup_filter_self (l : List (String × String)) (p : String) :
    (l.filter (fun e => !(e.1 == p))).lookup p = none := by
  induction l with
  | nil => rfl
  | cons a l ih =>
    simp only [List.filter_cons]
    cases hb : a.1 == p
    · have hp : (p == a.1) = false :=
        beq_eq_false_iff_ne.mpr (fun he => by simp [he.symm] at hb)
      simp [List.lookup, hb, hp, ih]
    · simp [hb, ih]

theorem lookup_filter_other (l : List (String × String)) (p q : String)
    (h : q ≠ p) :
    (l.filter (fun e => !(e.1 == p))).lookup q = l.lookup q := by
  induction l with
  | nil => rfl
  | cons a l ih =>
    simp only [List.filter_cons]
    cases hb : a.1 == p
    · simp [List.lookup, hb, ih]
    · have ha : a.1 = p := by simpa using hb
      have hq : (q == a.1) = false := beq_eq_false_iff_ne.mpr (ha ▸ h)
      simp [List.lookup, hb, hq, ih]

theorem FS.read_remove_self (fs : FS) (p : String) :
    (fs.remove p).read p = none :=
  lookup_filter_self fs.files p

theorem FS.read_remove_other (fs : FS) (p q : String) (h : q ≠ p) :
    (fs.remove p).read q = fs.read q :=
  lookup_filter_other fs.files p q h

theorem strAppend_ne (s t : String) (h : t.length ≠ 0) : s ++ t ≠ s := by
  intro he
  have hl := congrArg String.length he
  rw [String.length_append] at hl
  omega

theorem mem_chunkStates (fs : FS) (p : String) (chunks : List String)
    (x : FS) (hx : x ∈ chunkStates fs p chunks) : ∃ s, x = fs.write p s := by
  simp only [chunkStates, List.mem_map, List.mem_range] at hx
  obtain ⟨i, _, hi⟩ := hx
  exact ⟨_, hi.symm⟩

/-! Claim theorems. -/

/-- C3 counterexample: is_modpack_zip does not always resolve to a boolean —
on a zip archive whose manifest entry exists but fails to JSON-parse, the
source catches only KeyError, so the parse error propagates instead of
yielding false. -/
theorem is_modpack_zip_parse_error_raises :
    is_modpack_zip ⟨true, [("manifest.json", none)]⟩ = .error .jsonDecodeError := rfl

/-- C3 (amended): is_modpack_zip resolves a non-zip file, an archive with no
manifest entry, and a parsed manifest missing the manifestType key to the
result false without raising; a manifest that fails to JSON-parse is not
covered and raises instead. -/
theorem is_modpack_zip_false_cases (z : ZipSource) :
    (z.isZip = false → is_modpack_zip z = .ok false)
    ∧ (z.entries.lookup "manifest.json" = none → is_modpack_zip z = .ok false)
    ∧ (∀ kvs : List (String × Json),
        z.entries.lookup "manifest.json" = some (some (.obj kvs)) →
        kvs.lookup "manifestType" = none →
        is_modpack_zip z = .ok false) := by
  refine ⟨?_, ?_, ?_⟩
  · intro h
    simp [is_modpack_zip, h]
  · intro h
    by_cases hz : z.isZip
    · simp [is_modpack_zip, hz, get_manifest, h]
    · simp [is_modpack_zip, hz]
  · intro kvs h hk
    by_cases hz : z.isZip
    · simp [is_modpack_zip, hz, get_manifest, h, Json.get, hk]
    · simp [is_modpack_zip, hz]

/-- Witness for C3 (amended) at a concrete archive with no manifest entry. -/
theorem is_modpack_zip_false_cases_witness :
    is_modpack_zip ⟨true, [("other.txt", none)]⟩ = .ok false :=
  (is_modpack_zip_false_cases ⟨true, [("other.txt", none)]⟩).2.1 rfl

/-- C4: at a manifest whose modLoaders sequence has no entry with a truthy
primary flag, the loader phase stops with an unhandled NameError — the
loader-id variable is never bound by the loop — rather than a reported
loader-phase failure; no loader-metadata request is made. -/
theorem loader_phase_no_primary_nameError (c : Catalog) (out : String) (fs : FS) :
    loader_phase c
      (Json.obj [("minecraft", Json.obj [("modLoaders",
        Json.arr [Json.obj [("id", Json.str "forge-36.2.39"),
                            ("primary", Json.bool false)]])])])
      out fs
      = ([], .error .nameError) := rfl

/-- C8: for an archive whose parsed manifest carries a manifestType other
than the sentinel minecraftModpack, the validity check returns false and the
pipeline performs no filesystem change at all: it returns the starting
filesystem and creates no directory. -/
theorem wrong_manifestType_no_output (c : Catalog) (cwd : List String)
    (tgt tempd : String) (z : ZipSource) (fs : FS) (mf : Json) (t : String)
    (hm : get_manifest z = .ok mf)
    (ht : mf.get "manifestType" = .ok (.str t))
    (hne : t ≠ "minecraftModpack") :
    is_modpack_zip z = .ok false
    ∧ (main_pipeline c cwd tgt z tempd fs).2 = .ok fs
    ∧ ∀ d : String, Event.mkdirEv d ∉ (main_pipeline c cwd tgt z tempd fs).1 := by
  have hz : is_modpack_zip z = .ok false := by
    by_cases hzz : z.isZip
    · simp [is_modpack_zip, hzz, hm, ht, Json.eqStr, hne]
    · simp [is_modpack_zip, hzz]
  refine ⟨hz, ?_, ?_⟩
  · simp [main_pipeline, hz]
  · simp [main_pipeline, hz]

/-- Witness for C8 at a concrete archive with manifestType server-pack. -/
theorem wrong_manifestType_no_output_witness :
    is_modpack_zip ⟨true, [("manifest.json",
        some (Json.obj [("manifestType", Json.str "serverPack")]))]⟩ = .ok false :=
  (wrong_manifestType_no_output trivialCatalog [] "pack.zip" "/tmp/t"
    ⟨true, [("manifest.json",
        some (Json.obj [("manifestType", Json.str "serverPack")]))]⟩
    ⟨[], []⟩ (Json.obj [("manifestType", Json.str "serverPack")]) "serverPack"
    rfl rfl (by decide)).1

theorem get_mkLoader_primary (x : String × Bool) :
    Json.get (mkLoader x) "primary" = .ok (Json.bool x.2) := rfl

theorem get_mkLoader_id (x : String × Bool) :
    Json.get (mkLoader x) "id" = .ok (Json.str x.1) := rfl

theorem select_loop_mkLoader (lrs : List (String × Bool)) (acc : Option Json) :
    select_loop (lrs.map mkLoader) acc
      = .ok (lrs.foldl (fun a x => if x.2 then some (Json.str x.1) else a) acc) := by
  induction lrs generalizing acc with
  | nil => rfl
  | cons x rest ih =>
    cases hx : x.2 <;>
      simp [select_loop, get_mkLoader_primary, get_mkLoader_id, Json.truthy, hx, ih]

theorem foldl_primary_find (lrs : List (String × Bool)) (acc : Option Json) :
    lrs.foldl (fun a x => if x.2 then some (Json.str x.1) else a) acc
      = match lrs.reverse.find? (fun x => x.2) with
        | some y => some (Json.str y.1)
        | none => acc := by
  induction lrs generalizing acc with
  | nil => rfl
  | cons x rest ih =>
    rw [List.foldl_cons, ih, List.reverse_cons, List.find?_append]
    cases hf : rest.reverse.find? (fun x => x.2)
    · cases hx : x.2 <;> simp [List.find?, hx]
    · simp

/-- C9: when several modLoaders entries are flagged primary, the loop leaves
the loader-id variable bound to the id of the last primary entry in sequence
order (earlier primary entries are silently overwritten), and the
loader-metadata request is issued for exactly that id. -/
theorem select_modloader_last_primary (c : Catalog) (lrs : List (String × Bool))
    (i : String) (b : Bool)
    (h : lrs.reverse.find? (fun x => x.2) = some (i, b)) :
    select_modloader (lrs.map mkLoader) = .ok (Json.str i)
    ∧ (get_modloader_info c (Json.str i)).1 = [.reqLoaderInfo i] := by
  constructor
  · unfold select_modloader
    rw [select_loop_mkLoader, foldl_primary_find, h]
  · rfl

/-- Witness for C9: two primary entries; the request id is the second one. -/
theorem select_modloader_last_primary_witness :
    select_modloader ([("fabric-0.11.6", true), ("forge-36.2.39", true)].map mkLoader)
      = .ok (Json.str "forge-36.2.39") :=
  (select_modloader_last_primary trivialCatalog
    [("fabric-0.11.6", true), ("forge-36.2.39", true)] "forge-36.2.39" true rfl).1

theorem strDropRight_append (p e : String) :
    strDropRight (p ++ e) e.data.length = p := by
  show String.mk (((p ++ e).data).take ((p ++ e).data.length - e.data.length)) = p
  rw [String.data_append, List.length_append, Nat.add_sub_cancel, List.take_left]

/-- C7: a loader destination path and URL both ending in a four-character
archive extension, with the destination not already ending in the installer
suffix, are rewritten by stripping the extension from both and appending
-installer.jar; a destination already carrying the installer suffix leaves
both unchanged. -/
theorem rewrite_installer_spec (p u e : String)
    (he : e.data.length = 4)
    (hn : strEndsWith (p ++ e) "-installer.jar" = false) :
    rewrite_installer (p ++ e) (u ++ e)
      = (p ++ "-installer.jar", u ++ "-installer.jar")
    ∧ ∀ d u2 : String, strEndsWith d "-installer.jar" = true →
        rewrite_installer d u2 = (d, u2) := by
  constructor
  · have h1 : strDropRight (p ++ e) 4 = p := by
      rw [← he]; exact strDropRight_append p e
    have h2 : strDropRight (u ++ e) 4 = u := by
      rw [← he]; exact strDropRight_append u e
    simp [rewrite_installer, hn, h1, h2]
  · intro d u2 hd
    simp [rewrite_installer, hd]

/-- Witness for C7 at the spec's example forge-36.0.0.jar. -/
theorem rewrite_installer_spec_witness :
    rewrite_installer "forge-36.0.0.jar" "https://host/forge-36.0.0.jar"
      = ("forge-36.0.0-installer.jar", "https://host/forge-36.0.0-installer.jar") :=
  (rewrite_installer_spec "forge-36.0.0" "https://host/forge-36.0.0" ".jar"
    (by decide) (by decide)).1

/-- C1 counterexample: with the overrides root path equal to the empty
string, the staging subdirectory joined from the staging root and the
overrides root is the staging root itself — not a strict descendant — yet
the assertion passes and extract_overrides performs the copy instead of
stopping. -/
theorem extract_overrides_not_strict :
    extract_overrides [] ⟨true, [("manifest.json",
        some (Json.obj [("overrides", Json.str "")]))]⟩ "/tmp/stage" "pack/minecraft"
      = .ok ⟨["manifest.json"], "/tmp/stage/", "pack/minecraft"⟩
    ∧ strictDescendant [] (os_path_join "/tmp/stage" "") "/tmp/stage" = false := by
  constructor
  · rfl
  · rfl

/-- C1 (amended): extract_overrides asserts after extraction that the
staging subdirectory joined from the staging root and the overrides root
path is a descendant of (possibly equal to) the staging root; whenever the
is_subdir check fails the call raises AssertionError, stopping the run
before any file is copied into the destination (no escaping entry is
silently skipped), and every successful call has performed the containment
check on the exact directory it copies from. -/
theorem extract_overrides_containment (cwd : List String) (z : ZipSource)
    (tempd out orf : String) (mf : Json)
    (hm : get_manifest z = .ok mf)
    (ho : mf.get "overrides" = .ok (.str orf)) :
    (is_subdir cwd (os_path_join tempd orf) tempd = false →
      extract_overrides cwd z tempd out = .error .assertionError)
    ∧ (∀ o : ExtractOutcome, extract_overrides cwd z tempd out = .ok o →
        is_subdir cwd o.copySrc tempd = true
        ∧ o.copySrc = os_path_join tempd orf
        ∧ o.copyDst = out) := by
  constructor
  · intro h
    simp [extract_overrides, hm, ho, h]
  · intro o hok
    by_cases h : is_subdir cwd (os_path_join tempd orf) tempd
    · simp [extract_overrides, hm, ho, h] at hok
      rw [← hok]
      exact ⟨h, rfl, rfl⟩
    · simp [extract_overrides, hm, ho, h] at hok

/-- Witness for C1 (amended) at a zip-slip archive whose overrides root is
a parent-directory traversal: the run stops with AssertionError. -/
theorem extract_overrides_containment_witness :
    extract_overrides ["home"] ⟨true, [("manifest.json",
        some (Json.obj [("overrides", Json.str "../evil")])), ("../evil/x", none)]⟩
      "/tmp/stage" "pack/minecraft" = .error .assertionError :=
  (extract_overrides_containment ["home"] ⟨true, [("manifest.json",
        some (Json.obj [("overrides", Json.str "../evil")])), ("../evil/x", none)]⟩
      "/tmp/stage" "pack/minecraft" "../evil"
      (Json.obj [("overrides", Json.str "../evil")]) rfl rfl).1 rfl

theorem get_mkFileRecord_projectID (p fi : Int) (r : Bool) :
    Json.get (mkFileRecord p fi r) "projectID" = .ok (Json.int p) := rfl

theorem get_mkFileRecord_fileID (p fi : Int) (r : Bool) :
    Json.get (mkFileRecord p fi r) "fileID" = .ok (Json.int fi) := rfl

theorem get_mkFileRecord_required (p fi : Int) (r : Bool) :
    Json.get (mkFileRecord p fi r) "required" = .ok (Json.bool r) := rfl

/-- C5: on a run where the derived destination file already exists and
force is off, the per-mod step logs the record as reused and returns the
filesystem unchanged without invoking the downloader, and the loader
download step treats a pre-existing destination as already installed: the
FileExistsError is passed over, the filesystem is returned unchanged, no
fetch happens, and the installer is still launched. -/
theorem second_run_reuses (c : Catalog) (p fi : Int) (r : Bool)
    (folder : String) (fs : FS) (info nm : Json) (url : String)
    (hi : c.addonInfo p = .ok info)
    (hn : Json.get info "name" = .ok nm)
    (hu : c.downloadUrl p fi = .ok url)
    (hex : os_path_exists fs (if r then os_path_join folder (lastSegment url)
        else os_path_join folder (lastSegment url) ++ ".disabled") = true) :
    download_manifest_file c (mkFileRecord p fi r) folder false fs
      = ([.reqAddonInfo p, .reqDownloadUrl p fi,
          .checkExists (if r then os_path_join folder (lastSegment url)
            else os_path_join folder (lastSegment url) ++ ".disabled"),
          .logReused nm.display], .ok fs)
    ∧ ∀ (nm2 : Json) (url2 dest2 : String) (fs2 : FS),
        os_path_exists fs2 dest2 = true →
        loader_download_step c nm2 url2 dest2 fs2
          = ([.logDownloading nm2.display, .runInstaller dest2], .ok fs2) := by
  constructor
  · unfold download_manifest_file
    simp only [get_mkFileRecord_projectID, get_mkFileRecord_fileID,
      get_mkFileRecord_required, get_info, get_download_url, hi, hu, hn,
      Json.truthy, hex, Bool.not_false, Bool.and_true, if_true]
    rfl
  · intro nm2 url2 dest2 fs2 h2
    simp [loader_download_step, download_to_file, h2]

/-- Witness for C5 at a concrete record whose destination already exists. -/
theorem second_run_reuses_witness :
    download_manifest_file demoCatalog (mkFileRecord 238222 3040523 true) "mods"
        false ⟨[("mods/jei-1.16.5.jar", "bytes")], []⟩
      = ([.reqAddonInfo 238222, .reqDownloadUrl 238222 3040523,
          .checkExists "mods/jei-1.16.5.jar", .logReused "JEI"],
         .ok ⟨[("mods/jei-1.16.5.jar", "bytes")], []⟩) :=
  (second_run_reuses demoCatalog 238222 3040523 true "mods"
    ⟨[("mods/jei-1.16.5.jar", "bytes")], []⟩ (Json.obj [("name", Json.str "JEI")])
    (Json.str "JEI") "https://edge.example/files/123/jei-1.16.5.jar"
    rfl rfl rfl rfl).1

theorem dmf_trace_shape (c : Catalog) (p fi : Int) (r : Bool)
    (folder : String) (force : Bool) (fs : FS) (info : Json) (url : String)
    (hi : c.addonInfo p = .ok info)
    (hu : c.downloadUrl p fi = .ok url) :
    ∃ rest : List Event,
      (download_manifest_file c (mkFileRecord p fi r) folder force fs).1
        = .reqAddonInfo p :: .reqDownloadUrl p fi ::
          .checkExists (if r then os_path_join folder (lastSegment url)
            else os_path_join folder (lastSegment url) ++ ".disabled") :: rest := by
  unfold download_manifest_file
  simp only [get_mkFileRecord_projectID, get_mkFileRecord_fileID,
    get_mkFileRecord_required, get_info, get_download_url, hi, hu, Json.truthy]
  set dest := if r = true then os_path_join folder (lastSegment url)
    else os_path_join folder (lastSegment url) ++ ".disabled" with hdest
  split
  · cases hgn : Json.get info "name" with
    | error e => exact ⟨[], by simp [hgn]⟩
    | ok nm => exact ⟨[Event.logReused nm.display], by simp [hgn]⟩
  · cases hgn : Json.get info "name" with
    | error e => exact ⟨[], by simp [hgn]⟩
    | ok nm =>
      rcases hdl : download_to_file (c.fetch url) dest false fs with ⟨tr, res⟩
      cases res with
      | ok fs2 =>
        exact ⟨[Event.logDownloading nm.display, Event.httpGet url], by simp [hgn, hdl]⟩
      | error e =>
        exact ⟨[Event.logDownloading nm.display, Event.httpGet url], by simp [hgn, hdl]⟩

/-- C6: the destination path the per-mod step checks (and downloads to) is
the folder joined with the final path segment of the resolved download URL,
with the fixed .disabled marker appended exactly when required is false. -/
theorem mod_dest_filename (c : Catalog) (p fi : Int) (r : Bool)
    (folder : String) (force : Bool) (fs : FS) (info : Json) (url : String)
    (hi : c.addonInfo p = .ok info)
    (hu : c.downloadUrl p fi = .ok url) :
    Event.checkExists (os_path_join folder (lastSegment url)
        ++ (if r then "" else ".disabled"))
      ∈ (download_manifest_file c (mkFileRecord p fi r) folder force fs).1 := by
  have hd : os_path_join folder (lastSegment url) ++ (if r then "" else ".disabled")
      = if r then os_path_join folder (lastSegment url)
        else os_path_join folder (lastSegment url) ++ ".disabled" := by
    cases r
    · simp
    · simp [String.append_empty]
  obtain ⟨rest, hr⟩ := dmf_trace_shape c p fi r folder force fs info url hi hu
  rw [hd, hr]
  simp

/-- Witness for C6 at a concrete non-required record. -/
theorem mod_dest_filename_witness :
    Event.checkExists "mods/jei-1.16.5.jar.disabled"
      ∈ (download_manifest_file demoCatalog (mkFileRecord 238222 3040523 false)
          "mods" false ⟨[], []⟩).1 :=
  mod_dest_filename demoCatalog 238222 3040523 false "mods" false ⟨[], []⟩
    (Json.obj [("name", Json.str "JEI")])
    "https://edge.example/files/123/jei-1.16.5.jar" rfl rfl

/-- C10: the per-mod step issues the add-on metadata request and the
download-url request, in that order, before the destination existence
check, so a second fully idempotent run (destination already present,
force off) still performs both catalog requests per record while never
invoking the downloader. -/
theorem requests_precede_exists_check (c : Catalog) (p fi : Int) (r : Bool)
    (folder : String) (force : Bool) (fs : FS) (info : Json) (url : String)
    (hi : c.addonInfo p = .ok info)
    (hu : c.downloadUrl p fi = .ok url) :
    (∃ rest : List Event,
      (download_manifest_file c (mkFileRecord p fi r) folder force fs).1
        = .reqAddonInfo p :: .reqDownloadUrl p fi ::
          .checkExists (if r then os_path_join folder (lastSegment url)
            else os_path_join folder (lastSegment url) ++ ".disabled") :: rest)
    ∧ (os_path_exists fs (if r then os_path_join folder (lastSegment url)
          else os_path_join folder (lastSegment url) ++ ".disabled") = true →
        ∀ u2 : String,
          Event.httpGet u2
            ∉ (download_manifest_file c (mkFileRecord p fi r) folder false fs).1) := by
  constructor
  · exact dmf_trace_shape c p fi r folder force fs info url hi hu
  · intro hex u2
    unfold download_manifest_file
    simp only [get_mkFileRecord_projectID, get_mkFileRecord_fileID,
      get_mkFileRecord_required, get_info, get_download_url, hi, hu, Json.truthy,
      hex, Bool.not_false, Bool.and_true, if_true]
    cases hgn : Json.get info "name" <;> simp [hgn]

/-- Witness for C10: on a filesystem already holding the destination, the
downloader fetch event is absent from the trace. -/
theorem requests_precede_exists_check_witness :
    Event.httpGet "https://edge.example/files/123/jei-1.16.5.jar"
      ∉ (download_manifest_file demoCatalog (mkFileRecord 238222 3040523 true) "mods"
          false ⟨[("mods/jei-1.16.5.jar", "bytes")], []⟩).1 :=
  (requests_precede_exists_check demoCatalog 238222 3040523 true "mods" false
    ⟨[("mods/jei-1.16.5.jar", "bytes")], []⟩ (Json.obj [("name", Json.str "JEI")])
    "https://edge.example/files/123/jei-1.16.5.jar" rfl rfl).2 rfl
    "https://edge.example/files/123/jei-1.16.5.jar"

theorem download_to_file_eq_exists (resp : HttpResponse) (file : String)
    (ow : Bool) (fs : FS) (h : (os_path_exists fs file && !ow) = true) :
    download_to_file resp file ow fs = ([fs], .error (.fileExistsError file)) := by
  simp [download_to_file, h]

theorem download_to_file_eq_httpError (resp : HttpResponse) (file : String)
    (ow : Bool) (fs : FS) (h1 : (os_path_exists fs file && !ow) = false)
    (h2 : resp.ok = false) :
    download_to_file resp file ow fs = ([fs], .error .httpError) := by
  simp [download_to_file, h1, h2]

theorem download_to_file_eq_connErr (resp : HttpResponse) (file : String)
    (ow : Bool) (fs : FS) (h1 : (os_path_exists fs file && !ow) = false)
    (h2 : resp.ok = true) (h3 : resp.streamFails = true) :
    download_to_file resp file ow fs
      = (fs :: chunkStates fs (file ++ ".part") resp.delivered,
         .error .connectionError) := by
  simp [download_to_file, h1, h2, h3]

theorem download_to_file_eq_success (resp : HttpResponse) (file : String)
    (ow : Bool) (fs : FS) (h1 : (os_path_exists fs file && !ow) = false)
    (h2 : resp.ok = true) (h3 : resp.streamFails = false) :
    download_to_file resp file ow fs
      = (fs :: (chunkStates fs (file ++ ".part") resp.delivered
          ++ [(fs.write (file ++ ".part") (String.join resp.delivered)).move
                (file ++ ".part") file]),
         .ok ((fs.write (file ++ ".part") (String.join resp.delivered)).move
                (file ++ ".part") file)) := by
  simp [download_to_file, h1, h2, h3]

theorem delivered_eq_chunks (resp : HttpResponse)
    (h : resp.streamFails = false) : resp.delivered = resp.chunks := by
  cases hfa : resp.failAfter with
  | none => simp [HttpResponse.delivered, hfa]
  | some k => simp [HttpResponse.streamFails, hfa] at h

/-- C2: download_to_file touches no path other than the destination and its
sibling temporary path (destination plus the .part suffix); every
filesystem state except a successful final one leaves the destination
unchanged, so no partially-written file ever appears at the destination;
any failure (pre-existing destination, HTTP error, mid-stream transport
failure) leaves the destination unchanged in every state, the final one
included, with at most the temporary artifact differing; and a successful
completion ends with the destination holding the full body and the
temporary file removed by the move. -/
theorem download_to_file_atomic (resp : HttpResponse) (file : String)
    (ow : Bool) (fs : FS) :
    (∀ fsi ∈ (download_to_file resp file ow fs).1, ∀ q : String,
        q ≠ file ++ ".part" → q ≠ file → fsi.read q = fs.read q)
    ∧ (∀ fsi ∈ ((download_to_file resp file ow fs).1).dropLast,
        fsi.read file = fs.read file)
    ∧ (∀ e : PyErr, (download_to_file resp file ow fs).2 = .error e →
        ∀ fsi ∈ (download_to_file resp file ow fs).1,
          fsi.read file = fs.read file)
    ∧ (∀ fs2 : FS, (download_to_file resp file ow fs).2 = .ok fs2 →
        fs2.read file = some (String.join resp.chunks)
        ∧ fs2.read (file ++ ".part") = none) := by
  have hne : file ++ ".part" ≠ file := strAppend_ne file ".part" (by decide)
  by_cases h1 : (os_path_exists fs file && !ow) = true
  · rw [download_to_file_eq_exists resp file ow fs h1]
    refine ⟨?_, ?_, ?_, ?_⟩
    · intro fsi hf q hq1 hq2
      simp at hf; subst hf; rfl
    · intro fsi hf
      simp at hf
    · intro e he fsi hf
      simp at hf; subst hf; rfl
    · intro fs2 hok
      simp at hok
  · rw [Bool.not_eq_true] at h1
    by_cases h2 : resp.ok = true
    · by_cases h3 : resp.streamFails = true
      · rw [download_to_file_eq_connErr resp file ow fs h1 h2 h3]
        have hmem : ∀ fsi ∈ fs :: chunkStates fs (file ++ ".part") resp.delivered,
            ∀ q : String, q ≠ file ++ ".part" → fsi.read q = fs.read q := by
          intro fsi hf q hq
          rcases List.mem_cons.mp hf with h | h
          · subst h; rfl
          · obtain ⟨s, rfl⟩ := mem_chunkStates fs (file ++ ".part") resp.delivered fsi h
            exact FS.read_write_ne fs (file ++ ".part") s q hq
        refine ⟨?_, ?_, ?_, ?_⟩
        · intro fsi hf q hq1 hq2
          exact hmem fsi hf q hq1
        · intro fsi hf
          exact hmem fsi (List.dropLast_subset _ hf) file (Ne.symm hne)
        · intro e he fsi hf
          exact hmem fsi hf file (Ne.symm hne)
        · intro fs2 hok
          simp at hok
      · rw [Bool.not_eq_true] at h3
        rw [download_to_file_eq_success resp file ow fs h1 h2 h3]
        have hfin_expand :
            (fs.write (file ++ ".part") (String.join resp.delivered)).move
                (file ++ ".part") file
              = ((fs.write (file ++ ".part") (String.join resp.delivered)).remove
                  (file ++ ".part")).write file (String.join resp.delivered) := by
          rw [FS.move, FS.read_write_self]
        have hfin_file :
            ((fs.write (file ++ ".part") (String.join resp.delivered)).move
                (file ++ ".part") file).read file = some (String.join resp.delivered) := by
          rw [hfin_expand]
          exact FS.read_write_self _ file _
        have hfin_dl :
            ((fs.write (file ++ ".part") (String.join resp.delivered)).move
                (file ++ ".part") file).read (file ++ ".part") = none := by
          rw [hfin_expand, FS.read_write_ne _ file _ (file ++ ".part") hne]
          exact FS.read_remove_self _ (file ++ ".part")
        have hfin_other : ∀ q : String, q ≠ file ++ ".part" → q ≠ file →
            ((fs.write (file ++ ".part") (String.join resp.delivered)).move
                (file ++ ".part") file).read q = fs.read q := by
          intro q hq1 hq2
          rw [hfin_expand, FS.read_write_ne _ file _ q hq2,
            FS.read_remove_other _ (file ++ ".part") q hq1,
            FS.read_write_ne fs (file ++ ".part") _ q hq1]
        have hdrop :
            (fs :: (chunkStates fs (file ++ ".part") resp.delivered
              ++ [(fs.write (file ++ ".part") (String.join resp.delivered)).move
                    (file ++ ".part") file])).dropLast
              = fs :: chunkStates fs (file ++ ".part") resp.delivered := by
          rw [← List.cons_append, List.dropLast_concat]
        have hmem2 : ∀ fsi ∈ fs :: chunkStates fs (file ++ ".part") resp.delivered,
            ∀ q : String, q ≠ file ++ ".part" → fsi.read q = fs.read q := by
          intro fsi hf q hq
          rcases List.mem_cons.mp hf with h | h
          · subst h; rfl
          · obtain ⟨s, rfl⟩ := mem_chunkStates fs (file ++ ".part") resp.delivered fsi h
            exact FS.read_write_ne fs (file ++ ".part") s q hq
        refine ⟨?_, ?_, ?_, ?_⟩
        · intro fsi hf q hq1 hq2
          rcases List.mem_cons.mp hf with h | h
          · subst h; rfl
          · rcases List.mem_append.mp h with h | h
            · obtain ⟨s, rfl⟩ := mem_chunkStates fs (file ++ ".part") resp.delivered fsi h
              exact FS.read_write_ne fs (file ++ ".part") s q hq1
            · rw [List.mem_singleton] at h; subst h
              exact hfin_other q hq1 hq2
        · intro fsi hf
          rw [hdrop] at hf
          exact hmem2 fsi hf file (Ne.symm hne)
        · intro e he fsi hf
          simp at he
        · intro fs2 hok
          simp only [Except.ok.injEq] at hok
          subst hok
          rw [← delivered_eq_chunks resp h3]
          exact ⟨hfin_file, hfin_dl⟩
    · rw [Bool.not_eq_true] at h2
      rw [download_to_file_eq_httpError resp file ow fs h1 h2]
      refine ⟨?_, ?_, ?_, ?_⟩
      · intro fsi hf q hq1 hq2
        simp at hf; subst hf; rfl
      · intro fsi hf
        simp at hf
      · intro e he fsi hf
        simp at hf; subst hf; rfl
      · intro fs2 hok
        simp at hok

/-- Witness for C2: a transport failure after one delivered chunk leaves the
destination unchanged in the traced state that holds the partial temporary
file. -/
theorem download_to_file_atomic_witness :
    (FS.write ⟨[("g", "x")], []⟩ "f.part" "ab").read "f"
      = FS.read ⟨[("g", "x")], []⟩ "f" :=
  (download_to_file_atomic ⟨true, ["ab", "cd"], some 1⟩ "f" false
      ⟨[("g", "x")], []⟩).2.2.1 PyErr.connectionError rfl
    (FS.write ⟨[("g", "x")], []⟩ "f.part" "ab") (by decide)
